import Mathlib

/-!
Verification of the LOWVOL swing-trading scanner and backtester
(`src/app.py`) against its natural-language specification.

The embedding models one daily OHLCV bar as a record of rational prices,
a pandas DataFrame as a list of bars (row index standing in for the date
column), pandas rolling-window reductions as `Option`-valued functions that
are `none` where pandas would produce `NaN` (fewer rows than the window),
and every Python failure mode (KeyError on a missing column,
ZeroDivisionError, IndexError on `iloc`) as `none`/`Option` propagation.
All prices and sums are exact rationals; Python float floor-division `//`
is modelled by `Int.floor` of the rational quotient.
-/

namespace LowVol

/-- One daily OHLCV bar: one row of the DataFrame returned by
`fetch_polygon_data` (columns Open, High, Low, Close, Volume); the `date`
column is represented by the row index. -/
structure Bar where
  openP : ℚ
  high : ℚ
  low : ℚ
  close : ℚ
  volume : ℚ
deriving DecidableEq, Repr

/-- One row of the backtest trade log
`[ticker, entry_date, exit_date, entry_price, exit_price, pnl]`
(`src/app.py` line 136); dates are bar indices. -/
structure Trade where
  ticker : String
  entryDate : Nat
  exitDate : Nat
  entryPrice : ℚ
  exitPrice : ℚ
  pnl : ℚ
deriving DecidableEq, Repr

/-- The mutable state of the backtest loop: running `capital` and the
accumulated `trade_log` (`src/app.py` lines 113-114). -/
structure LoopState where
  capital : ℚ
  log : List Trade
deriving DecidableEq, Repr

/-- The High column of a frame. -/
def highs (bars : List Bar) : List ℚ := bars.map Bar.high

/-- The Low column of a frame. -/
def lows (bars : List Bar) : List ℚ := bars.map Bar.low

/-- The Volume column of a frame. -/
def volumes (bars : List Bar) : List ℚ := bars.map Bar.volume

/-- Pandas `series.rolling(w)` reduced by a binary operation, evaluated at
row `i`: the reduction of rows `i-w+1 .. i`, and `none` (pandas `NaN`)
when fewer than `w` rows are available or `i` is out of range. -/
def rollingApply (op : ℚ → ℚ → ℚ) (w : Nat) (xs : List ℚ) (i : Nat) : Option ℚ :=
  if w ≤ i + 1 ∧ i < xs.length then
    match (xs.take (i + 1)).drop (i + 1 - w) with
    | [] => none
    | x :: r => some (r.foldl op x)
  else none

/-- Pandas `series.rolling(w).max()` at row `i`. -/
def rollingMax (w : Nat) (xs : List ℚ) (i : Nat) : Option ℚ :=
  rollingApply max w xs i

/-- Pandas `series.rolling(w).min()` at row `i`. -/
def rollingMin (w : Nat) (xs : List ℚ) (i : Nat) : Option ℚ :=
  rollingApply min w xs i

/-- Pandas `series.rolling(w).mean()` at row `i`. -/
def rollingMean (w : Nat) (xs : List ℚ) (i : Nat) : Option ℚ :=
  if w ≤ i + 1 ∧ i < xs.length then
    some ((((xs.take (i + 1)).drop (i + 1 - w)).sum) / (w : ℚ))
  else none

/-- The `BBW` column added by `scan_stocks` (`src/app.py` line 74):
`(High.rolling(20).max() - Low.rolling(20).min()) / Close`. -/
def bbwCol (bars : List Bar) (i : Nat) : Option ℚ :=
  match rollingMax 20 (highs bars) i, rollingMin 20 (lows bars) i, bars[i]? with
  | some h, some l, some b => some ((h - l) / b.close)
  | _, _, _ => none

/-- The `ATR` column added by `scan_stocks` (`src/app.py` line 75):
`High.rolling(14).max() - Low.rolling(14).min()`. -/
def atrCol (bars : List Bar) (i : Nat) : Option ℚ :=
  match rollingMax 14 (highs bars) i, rollingMin 14 (lows bars) i with
  | some h, some l => some (h - l)
  | _, _ => none

/-- The `AvgVol` column added by `scan_stocks` (`src/app.py` line 76):
`Volume.rolling(50).mean()`. -/
def avgVolCol (bars : List Bar) (i : Nat) : Option ℚ :=
  rollingMean 50 (volumes bars) i

/-- Pandas `series.dropna()` for a derived column with `n` rows: the list of
the defined values, in row order. -/
def dropnaCol (col : Nat → Option ℚ) (n : Nat) : List ℚ :=
  (List.range n).filterMap col

/-- `np.percentile(xs, 10)` (`src/app.py` lines 79-80): sort ascending and
linearly interpolate at position `(n-1)/10`; `none` on an empty input (where
numpy raises). -/
def percentile10 (xs : List ℚ) : Option ℚ :=
  if xs.length = 0 then none
  else
    match (List.insertionSort (· ≤ ·) xs)[(⌊((xs.length - 1 : ℕ) : ℚ) / 10⌋).toNat]?,
        (List.insertionSort (· ≤ ·) xs)[(⌊((xs.length - 1 : ℕ) : ℚ) / 10⌋).toNat + 1]? with
    | some a, some b =>
        some (a + (((xs.length - 1 : ℕ) : ℚ) / 10 - ((⌊((xs.length - 1 : ℕ) : ℚ) / 10⌋).toNat : ℚ)) * (b - a))
    | some a, none => some a
    | none, _ => none

/-- The selection test of `scan_stocks` (`src/app.py` lines 74-85) on one
frame that already passed the 50-bar check: latest `BBW` strictly below the
10th percentile of the whole `BBW` column, latest `ATR` strictly below the
10th percentile of the whole `ATR` column, and latest volume above
`1.5 * AvgVol`. -/
def scanPasses (bars : List Bar) : Bool :=
  match bbwCol bars (bars.length - 1), atrCol bars (bars.length - 1),
      avgVolCol bars (bars.length - 1),
      percentile10 (dropnaCol (bbwCol bars) bars.length),
      percentile10 (dropnaCol (atrCol bars) bars.length),
      bars[(bars.length - 1)]? with
  | some bbwL, some atrL, some avL, some bbwThr, some atrThr, some lastBar =>
      decide (bbwL < bbwThr) && decide (atrL < atrThr) &&
        decide (3 / 2 * avL < lastBar.volume)
  | _, _, _, _, _, _ => false

/-- `scan_stocks` (`src/app.py` lines 64-88). The HTTP fetch is abstracted
into `data`, the map from ticker to the frame `fetch_polygon_data` returns
for it (`none` when the fetch returns `None`); tickers whose frame is
missing or shorter than 50 bars are skipped by `continue`. -/
def scan_stocks (data : String → Option (List Bar)) (tickers : List String) : List String :=
  tickers.filter fun t =>
    match data t with
    | none => false
    | some bars => if bars.length < 50 then false else scanPasses bars

/-- A DataFrame as seen by `calculate_trade_parameters`: the bar rows plus
whether the derived `ATR` column is present. `scan_stocks` stores the column
(line 75); the frame `backtest` passes (line 121) comes straight from
`fetch_polygon_data` and has no such column. -/
structure Frame where
  bars : List Bar
  atrStored : Bool

/-- `calculate_trade_parameters` (`src/app.py` lines 94-105). Reading the
`ATR` column of a frame without it raises KeyError (modelled `none`); with
the column present its values are those of `atrCol`, the only formula that
ever writes it. The rolling `.iloc[-1]` reads are the window values at the
last row, `none` when the frame is shorter than the window (pandas `NaN`). -/
def calculate_trade_parameters (fr : Frame) : Option (ℚ × ℚ × ℚ) :=
  if fr.atrStored then
    match rollingMax 20 (highs fr.bars) (fr.bars.length - 1),
        rollingMin 20 (lows fr.bars) (fr.bars.length - 1),
        atrCol fr.bars (fr.bars.length - 1),
        rollingMin 5 (lows fr.bars) (fr.bars.length - 1) with
    | some highRange, some lowRange, some atr, some low5 =>
        some (highRange * (98 / 100),
          max (lowRange - atr * (3 / 2)) low5,
          highRange * (98 / 100) +
            2 * (highRange * (98 / 100) - max (lowRange - atr * (3 / 2)) low5))
    | _, _, _, _ => none
  else none

/-- The position size of `src/app.py` line 125:
`(capital * RISK_PER_TRADE) // (entry_price - stop_loss)`, Python float
floor-division modelled as the floor of the exact rational quotient. -/
def sharesOf (capital risk entry stop : ℚ) : ℤ :=
  ⌊capital * risk / (entry - stop)⌋

/-- One iteration of the backtest loop body (`src/app.py` lines 123-137) at
bar `i`: if `High[i] >= entry_price` a trade is opened and immediately
resolved — stop-loss if `Low[i+1] <= stop_loss` (checked first, so a bar
hitting both stop and target records the stop), else target if
`High[i+1] >= target_price`, else the close three bars after entry.
`none` models the uncaught Python errors: ZeroDivisionError when
`entry_price == stop_loss` and IndexError when `iloc[i+3]` is past the end
of the frame. -/
def stepTrade (tk : String) (risk entry stop target : ℚ) (bars : List Bar) (i : Nat)
    (st : LoopState) : Option LoopState :=
  match bars[i]? with
  | none => none
  | some bar =>
    if entry ≤ bar.high then
      match bars[(i + 1)]? with
      | none => none
      | some nxt =>
        if entry - stop = 0 then none
        else if nxt.low ≤ stop then
          some ⟨st.capital + (stop - entry) * (sharesOf st.capital risk entry stop : ℚ),
            st.log ++ [⟨tk, i, i + 1, entry, stop,
              (stop - entry) * (sharesOf st.capital risk entry stop : ℚ)⟩]⟩
        else if target ≤ nxt.high then
          some ⟨st.capital + (target - entry) * (sharesOf st.capital risk entry stop : ℚ),
            st.log ++ [⟨tk, i, i + 1, entry, target,
              (target - entry) * (sharesOf st.capital risk entry stop : ℚ)⟩]⟩
        else
          match bars[(i + 3)]? with
          | none => none
          | some b3 =>
            some ⟨st.capital + (b3.close - entry) * (sharesOf st.capital risk entry stop : ℚ),
              st.log ++ [⟨tk, i, i + 3, entry, b3.close,
                (b3.close - entry) * (sharesOf st.capital risk entry stop : ℚ)⟩]⟩
    else some st

/-- The loop `for i in range(len(df) - 1)` of `backtest`, iterating
`stepTrade` from index `i` with `fuel` iterations left. -/
def runAux (tk : String) (risk entry stop target : ℚ) (bars : List Bar) :
    Nat → Nat → LoopState → Option LoopState
  | 0, _, st => some st
  | fuel + 1, i, st =>
    match stepTrade tk risk entry stop target bars i st with
    | none => none
    | some st' => runAux tk risk entry stop target bars fuel (i + 1) st'

/-- The whole inner loop of `backtest` for one ticker
(`src/app.py` lines 123-137): `len(df) - 1` iterations starting at bar 0. -/
def runLoop (tk : String) (risk entry stop target : ℚ) (bars : List Bar)
    (st : LoopState) : Option LoopState :=
  runAux tk risk entry stop target bars (bars.length - 1) 0 st

/-- The per-ticker recursion of `backtest` (`src/app.py` lines 116-140):
skip a ticker whose fetch failed or returned fewer than 50 bars, otherwise
compute trade parameters on the raw fetched frame (which carries no `ATR`
column) and run the trade loop; `none` aborts the whole run, as an uncaught
Python exception would. -/
def backtestGo (data : String → Option (List Bar)) (risk : ℚ) :
    List String → LoopState → Option (List Trade × ℚ)
  | [], st => some (st.log, st.capital)
  | t :: rest, st =>
    match data t with
    | none => backtestGo data risk rest st
    | some bars =>
      if bars.length < 50 then backtestGo data risk rest st
      else
        match calculate_trade_parameters ⟨bars, false⟩ with
        | none => none
        | some (entry, stop, target) =>
          match runLoop t risk entry stop target bars st with
          | none => none
          | some st' => backtestGo data risk rest st'

/-- `backtest(tickers)` (`src/app.py` lines 111-140). The module globals
`INITIAL_CAPITAL` and `RISK_PER_TRADE` and the data fetch are passed
explicitly; the result is the trade log (as a DataFrame) and the final
capital. -/
def backtest (data : String → Option (List Bar)) (tickers : List String)
    (initialCapital risk : ℚ) : Option (List Trade × ℚ) :=
  backtestGo data risk tickers ⟨initialCapital, []⟩

/-- The module configuration constants of `src/app.py` lines 19-20. -/
def INITIAL_CAPITAL : ℚ := 100000

/-- `RISK_PER_TRADE = 0.02` (`src/app.py` line 20). -/
def RISK_PER_TRADE : ℚ := 2 / 100

/-- The provider response seen by `fetch_polygon_data`: the HTTP status code
and the decoded `results` rows. -/
structure PolygonResponse where
  statusCode : Nat
  results : List Bar

/-- `fetch_polygon_data` (`src/app.py` lines 26-39): `None` on a non-200
status or an empty `results` list, otherwise the rows as a frame. -/
def fetch_polygon_data (resp : PolygonResponse) : Option (List Bar) :=
  if resp.statusCode ≠ 200 then none
  else if resp.results = [] then none
  else some resp.results

/-- The trade-open test of `backtest` at bar `i`: `High[i] >= entry_price`
(`src/app.py` line 124) with `entry_price` from
`calculate_trade_parameters` (line 121), evaluated on a frame carrying the
`ATR` column as `scan_stocks` computes it. -/
def opensTradeAt (bars : List Bar) (i : Nat) : Bool :=
  match calculate_trade_parameters ⟨bars, true⟩, bars[i]? with
  | some (entry, _, _), some b => decide (entry ≤ b.high)
  | _, _ => false

/-! Basic facts about the rolling-window engine. -/

lemma length_highs (bars : List Bar) : (highs bars).length = bars.length := by
  simp [highs]

lemma length_lows (bars : List Bar) : (lows bars).length = bars.length := by
  simp [lows]

lemma length_volumes (bars : List Bar) : (volumes bars).length = bars.length := by
  simp [volumes]

lemma slice_length (w : Nat) (xs : List ℚ) (i : Nat) (h1 : w ≤ i + 1)
    (h2 : i < xs.length) : ((xs.take (i + 1)).drop (i + 1 - w)).length = w := by
  rw [List.length_drop, List.length_take]
  omega

lemma rollingApply_eq_some (op : ℚ → ℚ → ℚ) (w : Nat) (xs : List ℚ) (i : Nat)
    (hw : 0 < w) (h1 : w ≤ i + 1) (h2 : i < xs.length) :
    ∃ v, rollingApply op w xs i = some v := by
  have hl := slice_length w xs i h1 h2
  unfold rollingApply
  rw [if_pos ⟨h1, h2⟩]
  cases hs : (xs.take (i + 1)).drop (i + 1 - w) with
  | nil => rw [hs] at hl; simp at hl; omega
  | cons x r => exact ⟨r.foldl op x, by simp [hs]⟩

lemma rollingApply_eq_none (op : ℚ → ℚ → ℚ) (w : Nat) (xs : List ℚ) (i : Nat)
    (h : ¬(w ≤ i + 1 ∧ i < xs.length)) : rollingApply op w xs i = none := by
  unfold rollingApply
  rw [if_neg h]

lemma rollingApply_congr (op : ℚ → ℚ → ℚ) (w : Nat) (xs ys : List ℚ) (i : Nat)
    (h : xs.take (i + 1) = ys.take (i + 1)) :
    rollingApply op w xs i = rollingApply op w ys i := by
  have hm : min (i + 1) xs.length = min (i + 1) ys.length := by
    have h2 := congrArg List.length h
    simpa using h2
  unfold rollingApply
  by_cases hc : w ≤ i + 1 ∧ i < xs.length
  · rw [if_pos hc, if_pos ⟨hc.1, by omega⟩, h]
  · have hc' : ¬(w ≤ i + 1 ∧ i < ys.length) := fun hx => hc ⟨hx.1, by omega⟩
    rw [if_neg hc, if_neg hc']

lemma rollingMean_congr (w : Nat) (xs ys : List ℚ) (i : Nat)
    (h : xs.take (i + 1) = ys.take (i + 1)) :
    rollingMean w xs i = rollingMean w ys i := by
  have hm : min (i + 1) xs.length = min (i + 1) ys.length := by
    have h2 := congrArg List.length h
    simpa using h2
  unfold rollingMean
  by_cases hc : w ≤ i + 1 ∧ i < xs.length
  · rw [if_pos hc, if_pos ⟨hc.1, by omega⟩, h]
  · have hc' : ¬(w ≤ i + 1 ∧ i < ys.length) := fun hx => hc ⟨hx.1, by omega⟩
    rw [if_neg hc, if_neg hc']

/-! Evaluation of the rolling engine on constant (replicated) frames. -/

lemma foldl_self_replicate (op : ℚ → ℚ → ℚ) (a : ℚ) (hop : op a a = a) :
    ∀ k, List.foldl op a (List.replicate k a) = a
  | 0 => rfl
  | k + 1 => by
      rw [List.replicate_succ, List.foldl_cons, hop, foldl_self_replicate op a hop k]

lemma rollingApply_replicate (op : ℚ → ℚ → ℚ) (a : ℚ) (hop : op a a = a)
    (w n i : Nat) (hw : 0 < w) (h1 : w ≤ i + 1) (h2 : i < n) :
    rollingApply op w (List.replicate n a) i = some a := by
  unfold rollingApply
  rw [if_pos ⟨h1, by simpa using h2⟩, List.take_replicate, List.drop_replicate]
  have he : min (i + 1) n - (i + 1 - w) = w := by omega
  rw [he]
  obtain ⟨m, rfl⟩ : ∃ m, w = m + 1 := ⟨w - 1, by omega⟩
  rw [List.replicate_succ]
  simp [foldl_self_replicate op a hop m]

lemma rollingMean_replicate (a : ℚ) (w n i : Nat) (hw : 0 < w) (h1 : w ≤ i + 1)
    (h2 : i < n) : rollingMean w (List.replicate n a) i = some a := by
  unfold rollingMean
  rw [if_pos ⟨h1, by simpa using h2⟩, List.take_replicate, List.drop_replicate]
  have he : min (i + 1) n - (i + 1 - w) = w := by omega
  rw [he]
  have hw' : (w : ℚ) ≠ 0 := Nat.cast_ne_zero.2 (by omega)
  rw [List.sum_replicate, nsmul_eq_mul]
  congr 1
  field_simp

lemma highs_replicate (n : Nat) (b : Bar) :
    highs (List.replicate n b) = List.replicate n b.high := by
  simp [highs]

lemma lows_replicate (n : Nat) (b : Bar) :
    lows (List.replicate n b) = List.replicate n b.low := by
  simp [lows]

lemma volumes_replicate (n : Nat) (b : Bar) :
    volumes (List.replicate n b) = List.replicate n b.volume := by
  simp [volumes]

lemma bbwCol_replicate (b : Bar) (n i : Nat) (h1 : 20 ≤ i + 1) (h2 : i < n) :
    bbwCol (List.replicate n b) i = some ((b.high - b.low) / b.close) := by
  unfold bbwCol rollingMax rollingMin
  rw [highs_replicate, lows_replicate,
    rollingApply_replicate max b.high (max_self _) 20 n i (by norm_num) h1 h2,
    rollingApply_replicate min b.low (min_self _) 20 n i (by norm_num) h1 h2,
    List.getElem?_replicate, if_pos h2]

lemma atrCol_replicate (b : Bar) (n i : Nat) (h1 : 14 ≤ i + 1) (h2 : i < n) :
    atrCol (List.replicate n b) i = some (b.high - b.low) := by
  unfold atrCol rollingMax rollingMin
  rw [highs_replicate, lows_replicate,
    rollingApply_replicate max b.high (max_self _) 14 n i (by norm_num) h1 h2,
    rollingApply_replicate min b.low (min_self _) 14 n i (by norm_num) h1 h2]

lemma avgVolCol_replicate (b : Bar) (n i : Nat) (h1 : 50 ≤ i + 1) (h2 : i < n) :
    avgVolCol (List.replicate n b) i = some b.volume := by
  unfold avgVolCol
  rw [volumes_replicate]
  exact rollingMean_replicate b.volume 50 n i (by norm_num) h1 h2

lemma bbwCol_replicate_eq (b : Bar) (n i : Nat) (h2 : i < n) :
    bbwCol (List.replicate n b) i =
      if 19 ≤ i then some ((b.high - b.low) / b.close) else none := by
  by_cases h : 19 ≤ i
  · rw [if_pos h]
    exact bbwCol_replicate b n i (by omega) h2
  · rw [if_neg h]
    unfold bbwCol rollingMax
    rw [highs_replicate,
      rollingApply_eq_none max 20 _ i (by simp only [List.length_replicate]; omega)]

lemma atrCol_replicate_eq (b : Bar) (n i : Nat) (h2 : i < n) :
    atrCol (List.replicate n b) i =
      if 13 ≤ i then some (b.high - b.low) else none := by
  by_cases h : 13 ≤ i
  · rw [if_pos h]
    exact atrCol_replicate b n i (by omega) h2
  · rw [if_neg h]
    unfold atrCol rollingMax
    rw [highs_replicate,
      rollingApply_eq_none max 14 _ i (by simp only [List.length_replicate]; omega)]

lemma filterMap_range_ge (v : ℚ) (k : Nat) : ∀ n : Nat,
    (List.range n).filterMap (fun i => if k ≤ i then some v else none) =
      List.replicate (n - k) v := by
  intro n
  induction n with
  | zero => simp
  | succ m ih =>
    rw [List.range_succ, List.filterMap_append, ih]
    by_cases h : k ≤ m
    · rw [show m + 1 - k = (m - k) + 1 by omega, List.replicate_add]
      simp [h]
    · rw [show m + 1 - k = 0 by omega, show m - k = 0 by omega]
      simp [h]

lemma dropna_bbw_replicate (b : Bar) (n : Nat) :
    dropnaCol (bbwCol (List.replicate n b)) n =
      List.replicate (n - 19) ((b.high - b.low) / b.close) := by
  unfold dropnaCol
  have hpt : ∀ i ∈ List.range n, bbwCol (List.replicate n b) i =
      (fun i => if 19 ≤ i then some ((b.high - b.low) / b.close) else none) i := by
    intro i hi
    rw [List.mem_range] at hi
    exact bbwCol_replicate_eq b n i hi
  rw [List.filterMap_congr hpt, filterMap_range_ge]

lemma dropna_atr_replicate (b : Bar) (n : Nat) :
    dropnaCol (atrCol (List.replicate n b)) n =
      List.replicate (n - 13) (b.high - b.low) := by
  unfold dropnaCol
  have hpt : ∀ i ∈ List.range n, atrCol (List.replicate n b) i =
      (fun i => if 13 ≤ i then some (b.high - b.low) else none) i := by
    intro i hi
    rw [List.mem_range] at hi
    exact atrCol_replicate_eq b n i hi
  rw [List.filterMap_congr hpt, filterMap_range_ge]

lemma insertionSort_replicate (v : ℚ) (k : Nat) :
    List.insertionSort (· ≤ ·) (List.replicate k v) = List.replicate k v := by
  induction k with
  | zero => rfl
  | succ n ih =>
    simp only [List.replicate_succ, List.insertionSort, ih]
    cases n with
    | zero => rfl
    | succ m => simp [List.replicate_succ, List.orderedInsert]

lemma percentile10_replicate (v : ℚ) (m : Nat) (hm : 0 < m) :
    percentile10 (List.replicate m v) = some v := by
  unfold percentile10
  simp only [List.length_replicate, insertionSort_replicate, List.getElem?_replicate]
  rw [if_neg (by omega)]
  have hjlt : (⌊((m - 1 : ℕ) : ℚ) / 10⌋).toNat < m := by
    have hle : (((m - 1 : ℕ) : ℚ) / 10) ≤ ((m - 1 : ℕ) : ℚ) :=
      div_le_self (by positivity) (by norm_num)
    have hfle : ⌊((m - 1 : ℕ) : ℚ) / 10⌋ ≤ ((m - 1 : ℕ) : ℤ) := by
      calc ⌊((m - 1 : ℕ) : ℚ) / 10⌋ ≤ ⌊((m - 1 : ℕ) : ℚ)⌋ :=
            Int.floor_le_floor hle
        _ = ((m - 1 : ℕ) : ℤ) := Int.floor_natCast _
    have := Int.toNat_le.2 hfle
    omega
  by_cases h2 : (⌊((m - 1 : ℕ) : ℚ) / 10⌋).toNat + 1 < m
  · rw [if_pos hjlt, if_pos h2]
    simp
  · rw [if_pos hjlt, if_neg h2]

/-! Concrete frames used as witnesses and counterexamples. -/

/-- A flat bar: every price 100, volume 1000. -/
def baseBar : Bar := ⟨100, 100, 100, 100, 1000⟩

/-- A flat bar at twice the price of `baseBar`. -/
def bigBar : Bar := ⟨200, 200, 200, 200, 1000⟩

/-- Fifty flat bars: the smallest frame the 50-bar length check accepts. -/
def constBars50 : List Bar := List.replicate 50 baseBar

/-- Five bars whose first two highs touch an entry level of 10 while the
following bars hit neither a stop of 5 nor a target of 20. -/
def cexBars : List Bar :=
  [⟨7, 10, 6, 7, 0⟩, ⟨7, 10, 6, 7, 0⟩, ⟨7, 9, 6, 7, 0⟩, ⟨7, 9, 6, 7, 0⟩, ⟨7, 9, 6, 7, 0⟩]

/-- Two bars: the second hits a stop of 5 and a target of 20 on the same
bar (low 1, high 30). -/
def tieBars : List Bar := [⟨10, 10, 6, 7, 0⟩, ⟨10, 30, 1, 7, 0⟩]

/-- Four identical bars that trigger an entry of 6 everywhere but never hit
a stop of 1 nor a target of 1000, so the fallback exit needs bar `i + 3`. -/
def oobBars : List Bar := List.replicate 4 ⟨7, 7, 3, 5, 0⟩

/-- Twenty bars with a 20-bar high of `5000/49` (so that the 2% discount
entry is exactly 100) and every low at 90. -/
def c6Bar : Bar := ⟨100, 5000 / 49, 90, 100, 0⟩

/-- The frame of twenty `c6Bar` rows. -/
def c6Bars : List Bar := List.replicate 20 c6Bar

/-! Claim C1: the single-bar-ahead exit race. -/

/-- C1: for every trade the backtest loop opens at bar `i`, the exit is
decided by a race on bar `i+1` alone: if `Low[i+1] <= stop_loss` the trade
exits at the stop-loss price (also when the target would be hit on the same
bar — stop has priority); else if `High[i+1] >= target_price` it exits at
the target price; else it exits at the close three bars after entry,
without consulting bars `i+2` or `i+3` for the stop or the target. -/
theorem exit_race (tk : String) (risk entry stop target : ℚ) (bars : List Bar)
    (i : Nat) (st : LoopState) (bar nxt : Bar)
    (hbar : bars[i]? = some bar) (hnxt : bars[(i + 1)]? = some nxt)
    (hfire : entry ≤ bar.high) (hden : entry - stop ≠ 0) :
    (nxt.low ≤ stop →
      stepTrade tk risk entry stop target bars i st =
        some ⟨st.capital + (stop - entry) * (sharesOf st.capital risk entry stop : ℚ),
          st.log ++ [⟨tk, i, i + 1, entry, stop,
            (stop - entry) * (sharesOf st.capital risk entry stop : ℚ)⟩]⟩) ∧
    (¬nxt.low ≤ stop → target ≤ nxt.high →
      stepTrade tk risk entry stop target bars i st =
        some ⟨st.capital + (target - entry) * (sharesOf st.capital risk entry stop : ℚ),
          st.log ++ [⟨tk, i, i + 1, entry, target,
            (target - entry) * (sharesOf st.capital risk entry stop : ℚ)⟩]⟩) ∧
    (¬nxt.low ≤ stop → ¬target ≤ nxt.high → ∀ b3, bars[(i + 3)]? = some b3 →
      stepTrade tk risk entry stop target bars i st =
        some ⟨st.capital + (b3.close - entry) * (sharesOf st.capital risk entry stop : ℚ),
          st.log ++ [⟨tk, i, i + 3, entry, b3.close,
            (b3.close - entry) * (sharesOf st.capital risk entry stop : ℚ)⟩]⟩) := by
  refine ⟨?_, ?_, ?_⟩
  · intro h1
    unfold stepTrade
    simp only [hbar, hnxt]
    rw [if_pos hfire, if_neg hden, if_pos h1]
  · intro h1 h2
    unfold stepTrade
    simp only [hbar, hnxt]
    rw [if_pos hfire, if_neg hden, if_neg h1, if_pos h2]
  · intro h1 h2 b3 hb3
    unfold stepTrade
    simp only [hbar, hnxt]
    rw [if_pos hfire, if_neg hden, if_neg h1, if_neg h2]
    simp only [hb3]

/-- Witness for `exit_race`: a concrete tie bar (low 1 ≤ stop 5 and
high 30 ≥ target 20 simultaneously) records the stop-loss exit. -/
theorem exit_race_witness :
    stepTrade "TIE" (2 / 100) 10 5 20 tieBars 0 ⟨100000, []⟩ =
      some ⟨98000, [⟨"TIE", 0, 1, 10, 5, -2000⟩]⟩ := by
  have h := (exit_race "TIE" (2 / 100) 10 5 20 tieBars 0 ⟨100000, []⟩
    ⟨10, 10, 6, 7, 0⟩ ⟨10, 30, 1, 7, 0⟩ (by norm_num [tieBars]) (by norm_num [tieBars])
    (by norm_num) (by norm_num)).1 (by norm_num)
  rw [h]
  norm_num [sharesOf]

/-! Claim C2: one open trade per instrument at a time. -/

/-- Counterexample to C2: on `cexBars` with entry 10, stop 5, target 20, the
loop opens a trade at bar 0 that exits only at bar 3, and opens a second
trade at bar 1 — before the first has resolved. -/
theorem overlapping_trades_cex :
    runLoop "A" (2 / 100) 10 5 20 cexBars ⟨100000, []⟩ =
      some ⟨97615, [⟨"A", 0, 3, 10, 7, -1200⟩, ⟨"A", 1, 4, 10, 7, -1185⟩]⟩ ∧
    ((1 : Nat) < 3) := by
  constructor
  · norm_num [runLoop, runAux, stepTrade, sharesOf, cexBars]
  · norm_num

/-- C2 amended: the loop opens a trade at every bar whose high reaches the
entry level, regardless of the current state — no already-open trade is
tracked or consulted, so overlapping trades are recorded. -/
theorem trade_opens_regardless (tk : String) (risk entry stop target : ℚ)
    (bars : List Bar) (i : Nat) (st : LoopState) (bar nxt : Bar)
    (hbar : bars[i]? = some bar) (hfire : entry ≤ bar.high)
    (hnxt : bars[(i + 1)]? = some nxt) (hden : entry - stop ≠ 0)
    (hres : nxt.low ≤ stop ∨ target ≤ nxt.high ∨ ∃ b3, bars[(i + 3)]? = some b3) :
    ∃ tr : Trade, stepTrade tk risk entry stop target bars i st =
      some ⟨st.capital + tr.pnl, st.log ++ [tr]⟩ ∧ tr.entryDate = i := by
  unfold stepTrade
  simp only [hbar, hnxt]
  rw [if_pos hfire, if_neg hden]
  by_cases h1 : nxt.low ≤ stop
  · rw [if_pos h1]
    exact ⟨⟨tk, i, i + 1, entry, stop,
      (stop - entry) * (sharesOf st.capital risk entry stop : ℚ)⟩, rfl, rfl⟩
  · rw [if_neg h1]
    by_cases h2 : target ≤ nxt.high
    · rw [if_pos h2]
      exact ⟨⟨tk, i, i + 1, entry, target,
        (target - entry) * (sharesOf st.capital risk entry stop : ℚ)⟩, rfl, rfl⟩
    · rw [if_neg h2]
      rcases hres with h | h | ⟨b3, hb3⟩
      · exact absurd h h1
      · exact absurd h h2
      · simp only [hb3]
        exact ⟨⟨tk, i, i + 3, entry, b3.close,
          (b3.close - entry) * (sharesOf st.capital risk entry stop : ℚ)⟩, rfl, rfl⟩

/-- Witness for `trade_opens_regardless`: a new trade opens at bar 1 even
though the state already holds a trade that only exits at bar 3. -/
theorem trade_opens_regardless_witness :
    ∃ tr : Trade,
      stepTrade "A" (2 / 100) 10 5 20 cexBars 1
          ⟨98800, [⟨"A", 0, 3, 10, 7, -1200⟩]⟩ =
        some ⟨98800 + tr.pnl, [⟨"A", 0, 3, 10, 7, -1200⟩] ++ [tr]⟩ ∧
      tr.entryDate = 1 :=
  trade_opens_regardless "A" (2 / 100) 10 5 20 cexBars 1
    ⟨98800, [⟨"A", 0, 3, 10, 7, -1200⟩]⟩ ⟨7, 10, 6, 7, 0⟩ ⟨7, 9, 6, 7, 0⟩
    (by norm_num [cexBars]) (by norm_num) (by norm_num [cexBars]) (by norm_num)
    (Or.inr (Or.inr ⟨⟨7, 9, 6, 7, 0⟩, by norm_num [cexBars]⟩))

/-! Claim C6: position sizing and the 2:1 profit target. -/

/-- C6: the position size is `(capital * risk) / (entry - stop)` floored to
an integer, the target returned by the calculator is always
`entry + 2 * (entry - stop)`, and at entry 100 / stop 90 / risk 2% /
capital 100000 the size is 200 units and the target 120. -/
theorem risk_sizing_and_target :
    (∀ capital risk entry stop : ℚ,
      sharesOf capital risk entry stop = ⌊capital * risk / (entry - stop)⌋) ∧
    (∀ fr e s t, calculate_trade_parameters fr = some (e, s, t) →
      t = e + 2 * (e - s)) ∧
    calculate_trade_parameters ⟨c6Bars, true⟩ = some (100, 90, 120) ∧
    sharesOf INITIAL_CAPITAL RISK_PER_TRADE 100 90 = 200 := by
  refine ⟨fun _ _ _ _ => rfl, ?_, ?_, ?_⟩
  · intro fr e s t h
    unfold calculate_trade_parameters at h
    split at h
    · split at h
      · simp only [Option.some.injEq, Prod.mk.injEq] at h
        obtain ⟨he, hs, ht⟩ := h
        subst he
        subst hs
        subst ht
        rfl
      · exact absurd h (by simp)
    · exact absurd h (by simp)
  · have h1 : rollingApply max 20 (highs (List.replicate 20 c6Bar)) 19 = some c6Bar.high := by
      rw [highs_replicate]
      exact rollingApply_replicate max c6Bar.high (max_self _) 20 20 19
        (by norm_num) (by norm_num) (by norm_num)
    have h2 : rollingApply min 20 (lows (List.replicate 20 c6Bar)) 19 = some c6Bar.low := by
      rw [lows_replicate]
      exact rollingApply_replicate min c6Bar.low (min_self _) 20 20 19
        (by norm_num) (by norm_num) (by norm_num)
    have h3 : atrCol (List.replicate 20 c6Bar) 19 = some (c6Bar.high - c6Bar.low) :=
      atrCol_replicate c6Bar 20 19 (by norm_num) (by norm_num)
    have h4 : rollingApply min 5 (lows (List.replicate 20 c6Bar)) 19 = some c6Bar.low := by
      rw [lows_replicate]
      exact rollingApply_replicate min c6Bar.low (min_self _) 5 20 19
        (by norm_num) (by norm_num) (by norm_num)
    have hidx : (List.replicate 20 c6Bar).length - 1 = 19 := by norm_num
    simp only [calculate_trade_parameters, c6Bars, rollingMax, rollingMin, hidx,
      h1, h2, h3, h4]
    norm_num [c6Bar, max_def]
  · norm_num [sharesOf, INITIAL_CAPITAL, RISK_PER_TRADE]

/-- Witness for `risk_sizing_and_target`: the concrete calculator output
(100, 90, 120) satisfies the 2:1 target identity. -/
theorem risk_sizing_and_target_witness : (120 : ℚ) = 100 + 2 * (100 - 90) :=
  risk_sizing_and_target.2.1 ⟨c6Bars, true⟩ 100 90 120 risk_sizing_and_target.2.2.1

/-! Claim C3: no look-ahead. -/

/-- Twenty-one flat bars. -/
def dfA : List Bar := List.replicate 21 baseBar

/-- The same twenty bars as `dfA`, then one bar at twice the price: agrees
with `dfA` on every index up to 19. -/
def dfB : List Bar := List.replicate 20 baseBar ++ [bigBar]

/-- Counterexample to C3: `dfA` and `dfB` agree on all bars at indices up to
19, yet the backtest opens a trade at bar 19 on `dfA` and not on `dfB` —
the entry level is computed from the final bar's trailing windows, so the
decision at bar 19 looks ahead at bar 20. -/
theorem lookahead_cex :
    dfA.take 20 = dfB.take 20 ∧
    opensTradeAt dfA 19 = true ∧ opensTradeAt dfB 19 = false := by
  refine ⟨?_, ?_, ?_⟩
  · simp [dfA, dfB, List.take_replicate, List.take_append_eq_append_take]
  · norm_num [opensTradeAt, calculate_trade_parameters, rollingMax, rollingMin,
      atrCol, rollingApply, highs, lows, dfA, baseBar, List.replicate, max_def,
      List.foldl]
  · norm_num [opensTradeAt, calculate_trade_parameters, rollingMax, rollingMin,
      atrCol, rollingApply, highs, lows, dfB, baseBar, bigBar, List.replicate,
      max_def, List.foldl]

/-- C3 amended: every rolling value and every derived indicator column at
index `i` depends only on bars at indices up to `i` — two series agreeing on
their first `i+1` bars yield identical rolling values and identical
`BBW`/`ATR`/`AvgVol` entries at `i`. (The trade-open decision itself is not
covered: it uses parameters from the final bar's windows, see
`lookahead_cex`.) -/
theorem rolling_no_lookahead (op : ℚ → ℚ → ℚ) (w : Nat) (xs ys : List ℚ)
    (bars bars' : List Bar) (i : Nat)
    (hx : xs.take (i + 1) = ys.take (i + 1))
    (hb : bars.take (i + 1) = bars'.take (i + 1)) :
    rollingApply op w xs i = rollingApply op w ys i ∧
    rollingMean w xs i = rollingMean w ys i ∧
    bbwCol bars i = bbwCol bars' i ∧
    atrCol bars i = atrCol bars' i ∧
    avgVolCol bars i = avgVolCol bars' i := by
  have hh : (highs bars).take (i + 1) = (highs bars').take (i + 1) := by
    unfold highs
    rw [← List.map_take, ← List.map_take, hb]
  have hl : (lows bars).take (i + 1) = (lows bars').take (i + 1) := by
    unfold lows
    rw [← List.map_take, ← List.map_take, hb]
  have hv : (volumes bars).take (i + 1) = (volumes bars').take (i + 1) := by
    unfold volumes
    rw [← List.map_take, ← List.map_take, hb]
  have hgi : bars[i]? = bars'[i]? := by
    have e1 : (bars.take (i + 1))[i]? = bars[i]? := by
      rw [List.getElem?_take]
      simp
    have e2 : (bars'.take (i + 1))[i]? = bars'[i]? := by
      rw [List.getElem?_take]
      simp
    rw [← e1, ← e2, hb]
  refine ⟨rollingApply_congr op w xs ys i hx, rollingMean_congr w xs ys i hx,
    ?_, ?_, ?_⟩
  · unfold bbwCol rollingMax rollingMin
    rw [rollingApply_congr max 20 _ _ i hh, rollingApply_congr min 20 _ _ i hl, hgi]
  · unfold atrCol rollingMax rollingMin
    rw [rollingApply_congr max 14 _ _ i hh, rollingApply_congr min 14 _ _ i hl]
  · unfold avgVolCol
    rw [rollingMean_congr 50 _ _ i hv]

/-- Witness for `rolling_no_lookahead` at concrete series differing only
after the evaluation index. -/
theorem rolling_no_lookahead_witness :
    rollingApply max 2 [1, 2, 3] 1 = rollingApply max 2 [1, 2, 4] 1 ∧
    rollingMean 2 [1, 2, 3] 1 = rollingMean 2 [1, 2, 4] 1 ∧
    bbwCol [baseBar, baseBar, baseBar] 1 = bbwCol [baseBar, baseBar, bigBar] 1 ∧
    atrCol [baseBar, baseBar, baseBar] 1 = atrCol [baseBar, baseBar, bigBar] 1 ∧
    avgVolCol [baseBar, baseBar, baseBar] 1 = avgVolCol [baseBar, baseBar, bigBar] 1 :=
  rolling_no_lookahead max 2 [1, 2, 3] [1, 2, 4]
    [baseBar, baseBar, baseBar] [baseBar, baseBar, bigBar] 1
    (by norm_num) (by norm_num)

/-! Claim C4: totality of the backtest run. -/

/-- C4 evaluation: the backtest crashes rather than completing. On any
fetched frame of at least 50 bars the run aborts — `backtest` hands the raw
frame (no `ATR` column) to `calculate_trade_parameters`, whose `df["ATR"]`
read fails — and independently the loop body's `iloc[i+3]` read is out of
bounds at `i = len - 2` when neither stop nor target is hit on bar `i+1`. -/
theorem backtest_crashes :
    backtest (fun _ => some constBars50) ["AAPL"] INITIAL_CAPITAL RISK_PER_TRADE = none ∧
    calculate_trade_parameters ⟨constBars50, false⟩ = none ∧
    stepTrade "AAPL" RISK_PER_TRADE 6 1 1000 oobBars 2 ⟨INITIAL_CAPITAL, []⟩ = none := by
  refine ⟨?_, rfl, ?_⟩
  · norm_num [backtest, backtestGo, constBars50, calculate_trade_parameters]
  · norm_num [stepTrade, oobBars, List.replicate, sharesOf, RISK_PER_TRADE]

/-! Claim C5: rejection of invalid risk geometry. -/

/-- Counterexample to C5: on fifty flat bars the calculator returns
entry 98 below stop 100 with no rejection or clamping, the loop then
computes a negative position size of -1000 floor-divided units, and the
trade is appended and capital updated rather than the candidate aborted. -/
theorem no_guard_cex :
    calculate_trade_parameters ⟨constBars50, true⟩ = some (98, 100, 94) ∧
    ((98 : ℚ) ≤ 100) ∧
    sharesOf 100000 (2 / 100) 98 100 = -1000 ∧
    stepTrade "X" (2 / 100) 98 100 94 constBars50 0 ⟨100000, []⟩ =
      some ⟨98000, [⟨"X", 0, 1, 98, 100, -2000⟩]⟩ := by
  refine ⟨?_, by norm_num, ?_, ?_⟩
  · have h1 : rollingApply max 20 (highs (List.replicate 50 baseBar)) 49 = some baseBar.high := by
      rw [highs_replicate]
      exact rollingApply_replicate max baseBar.high (max_self _) 20 50 49
        (by norm_num) (by norm_num) (by norm_num)
    have h2 : rollingApply min 20 (lows (List.replicate 50 baseBar)) 49 = some baseBar.low := by
      rw [lows_replicate]
      exact rollingApply_replicate min baseBar.low (min_self _) 20 50 49
        (by norm_num) (by norm_num) (by norm_num)
    have h3 : atrCol (List.replicate 50 baseBar) 49 = some (baseBar.high - baseBar.low) :=
      atrCol_replicate baseBar 50 49 (by norm_num) (by norm_num)
    have h4 : rollingApply min 5 (lows (List.replicate 50 baseBar)) 49 = some baseBar.low := by
      rw [lows_replicate]
      exact rollingApply_replicate min baseBar.low (min_self _) 5 50 49
        (by norm_num) (by norm_num) (by norm_num)
    have hidx : (List.replicate 50 baseBar).length - 1 = 49 := by norm_num
    simp only [calculate_trade_parameters, constBars50, rollingMax, rollingMin, hidx,
      h1, h2, h3, h4]
    norm_num [baseBar, max_def]
  · norm_num [sharesOf]
  · norm_num [stepTrade, constBars50, List.getElem?_replicate, sharesOf, baseBar]

/-- C5 amended: `calculate_trade_parameters` performs no rejection or
clamping whatsoever — on any sufficiently long frame with the `ATR` column
it returns parameters regardless of the risk geometry — and when
`entry < stop` the loop's floor-divided position size is strictly negative
(and on exact equality the division raises instead of aborting just the
candidate). -/
theorem no_risk_geometry_guard (bars : List Bar) (capital risk entry stop : ℚ)
    (h20 : 20 ≤ bars.length) (hlt : entry < stop) (hpos : 0 < capital * risk) :
    (calculate_trade_parameters ⟨bars, true⟩).isSome ∧
    sharesOf capital risk entry stop < 0 := by
  constructor
  · obtain ⟨hr, hhr⟩ := rollingApply_eq_some max 20 (highs bars) (bars.length - 1)
      (by norm_num) (by omega) (by rw [length_highs]; omega)
    obtain ⟨lr, hlr⟩ := rollingApply_eq_some min 20 (lows bars) (bars.length - 1)
      (by norm_num) (by omega) (by rw [length_lows]; omega)
    obtain ⟨hm, hhm⟩ := rollingApply_eq_some max 14 (highs bars) (bars.length - 1)
      (by norm_num) (by omega) (by rw [length_highs]; omega)
    obtain ⟨lm, hlm⟩ := rollingApply_eq_some min 14 (lows bars) (bars.length - 1)
      (by norm_num) (by omega) (by rw [length_lows]; omega)
    obtain ⟨l5, hl5⟩ := rollingApply_eq_some min 5 (lows bars) (bars.length - 1)
      (by norm_num) (by omega) (by rw [length_lows]; omega)
    have ha : atrCol bars (bars.length - 1) = some (hm - lm) := by
      unfold atrCol rollingMax rollingMin
      rw [hhm, hlm]
    simp only [calculate_trade_parameters, rollingMax, rollingMin, hhr, hlr, ha, hl5]
    simp
  · have hq : capital * risk / (entry - stop) < 0 :=
      div_neg_of_pos_of_neg hpos (by linarith)
    by_contra hcon
    push_neg at hcon
    unfold sharesOf at hcon
    exact absurd (Int.floor_nonneg.1 hcon) (not_le.2 hq)

/-- Witness for `no_risk_geometry_guard` at the concrete inverted geometry
entry 98 / stop 100 produced by the flat 50-bar frame. -/
theorem no_risk_geometry_guard_witness :
    (calculate_trade_parameters ⟨constBars50, true⟩).isSome ∧
    sharesOf 100000 (2 / 100) 98 100 < 0 :=
  no_risk_geometry_guard constBars50 100000 (2 / 100) 98 100
    (by norm_num [constBars50]) (by norm_num) (by norm_num)

/-! Claim C7: the improved stop-loss policy. -/

/-- C7: on every frame of at least 20 bars the calculator's stop-loss equals
`max(low_20 - 1.5 * atr_range, low_5)` evaluated at the latest bar, where
`atr_range` is the 14-bar rolling channel width
`max(High, 14) - min(Low, 14)`. -/
theorem stop_loss_policy (bars : List Bar) (h20 : 20 ≤ bars.length) :
    ∃ e lr a l5,
      rollingMin 20 (lows bars) (bars.length - 1) = some lr ∧
      atrCol bars (bars.length - 1) = some a ∧
      (∃ hm lm, rollingMax 14 (highs bars) (bars.length - 1) = some hm ∧
        rollingMin 14 (lows bars) (bars.length - 1) = some lm ∧ a = hm - lm) ∧
      rollingMin 5 (lows bars) (bars.length - 1) = some l5 ∧
      calculate_trade_parameters ⟨bars, true⟩ =
        some (e, max (lr - 3 / 2 * a) l5,
          e + 2 * (e - max (lr - 3 / 2 * a) l5)) := by
  obtain ⟨hr, hhr⟩ := rollingApply_eq_some max 20 (highs bars) (bars.length - 1)
    (by norm_num) (by omega) (by rw [length_highs]; omega)
  obtain ⟨lr, hlr⟩ := rollingApply_eq_some min 20 (lows bars) (bars.length - 1)
    (by norm_num) (by omega) (by rw [length_lows]; omega)
  obtain ⟨hm, hhm⟩ := rollingApply_eq_some max 14 (highs bars) (bars.length - 1)
    (by norm_num) (by omega) (by rw [length_highs]; omega)
  obtain ⟨lm, hlm⟩ := rollingApply_eq_some min 14 (lows bars) (bars.length - 1)
    (by norm_num) (by omega) (by rw [length_lows]; omega)
  obtain ⟨l5, hl5⟩ := rollingApply_eq_some min 5 (lows bars) (bars.length - 1)
    (by norm_num) (by omega) (by rw [length_lows]; omega)
  have ha : atrCol bars (bars.length - 1) = some (hm - lm) := by
    unfold atrCol rollingMax rollingMin
    rw [hhm, hlm]
  refine ⟨hr * (98 / 100), lr, hm - lm, l5, hlr, ha, ⟨hm, lm, hhm, hlm, rfl⟩,
    hl5, ?_⟩
  simp only [calculate_trade_parameters, rollingMax, rollingMin, hhr, hlr, ha, hl5]
  rw [if_pos trivial, mul_comm (hm - lm) (3 / 2)]

/-- Witness for `stop_loss_policy` on the flat 50-bar frame. -/
theorem stop_loss_policy_witness :
    ∃ e lr a l5,
      rollingMin 20 (lows constBars50) (constBars50.length - 1) = some lr ∧
      atrCol constBars50 (constBars50.length - 1) = some a ∧
      (∃ hm lm, rollingMax 14 (highs constBars50) (constBars50.length - 1) = some hm ∧
        rollingMin 14 (lows constBars50) (constBars50.length - 1) = some lm ∧ a = hm - lm) ∧
      rollingMin 5 (lows constBars50) (constBars50.length - 1) = some l5 ∧
      calculate_trade_parameters ⟨constBars50, true⟩ =
        some (e, max (lr - 3 / 2 * a) l5,
          e + 2 * (e - max (lr - 3 / 2 * a) l5)) :=
  stop_loss_policy constBars50 (by norm_num [constBars50])

/-! Claim C8: the extreme-low-volatility screen. -/

/-- C8: a fetched instrument with at least 50 bars is selected by the
scanner iff its latest `BBW` and latest 14-bar range proxy are each strictly
below their own 10th percentile over the full available history and the
latest volume exceeds 1.5 times the 50-bar average volume. -/
theorem scan_characterization (data : String → Option (List Bar))
    (tickers : List String) (t : String) (bars : List Bar)
    (bbwL atrL avL bbwThr atrThr : ℚ) (lb : Bar)
    (ht : data t = some bars) (hlen : 50 ≤ bars.length)
    (h1 : bbwCol bars (bars.length - 1) = some bbwL)
    (h2 : atrCol bars (bars.length - 1) = some atrL)
    (h3 : avgVolCol bars (bars.length - 1) = some avL)
    (h4 : percentile10 (dropnaCol (bbwCol bars) bars.length) = some bbwThr)
    (h5 : percentile10 (dropnaCol (atrCol bars) bars.length) = some atrThr)
    (h6 : bars[(bars.length - 1)]? = some lb) :
    (t ∈ scan_stocks data tickers ↔
      t ∈ tickers ∧ (bbwL < bbwThr ∧ atrL < atrThr ∧ 3 / 2 * avL < lb.volume)) := by
  unfold scan_stocks
  rw [List.mem_filter]
  refine and_congr_right fun _ => ?_
  simp only [ht]
  rw [if_neg (by omega)]
  unfold scanPasses
  simp only [h1, h2, h3, h4, h5, h6]
  simp [and_assoc]

/-- Witness for `scan_characterization` on the flat 50-bar frame, which the
scanner rejects because its latest volatility readings are not strictly
below their own percentiles. -/
theorem scan_characterization_witness :
    ("X" ∈ scan_stocks (fun _ => some constBars50) ["X"] ↔
      "X" ∈ ["X"] ∧ ((0 : ℚ) < 0 ∧ (0 : ℚ) < 0 ∧ (3 : ℚ) / 2 * 1000 < baseBar.volume)) := by
  have hlen : constBars50.length = 50 := by norm_num [constBars50]
  have hval : ((baseBar.high - baseBar.low) / baseBar.close : ℚ) = 0 := by
    norm_num [baseBar]
  have hatrval : (baseBar.high - baseBar.low : ℚ) = 0 := by
    norm_num [baseBar]
  have h1 : bbwCol constBars50 (constBars50.length - 1) = some 0 := by
    rw [hlen, show constBars50 = List.replicate 50 baseBar from rfl,
      bbwCol_replicate baseBar 50 49 (by norm_num) (by norm_num), hval]
  have h2 : atrCol constBars50 (constBars50.length - 1) = some 0 := by
    rw [hlen, show constBars50 = List.replicate 50 baseBar from rfl,
      atrCol_replicate baseBar 50 49 (by norm_num) (by norm_num), hatrval]
  have h3 : avgVolCol constBars50 (constBars50.length - 1) = some 1000 := by
    rw [hlen, show constBars50 = List.replicate 50 baseBar from rfl,
      avgVolCol_replicate baseBar 50 49 (by norm_num) (by norm_num)]
    norm_num [baseBar]
  have h4 : percentile10 (dropnaCol (bbwCol constBars50) constBars50.length) = some 0 := by
    rw [hlen, show constBars50 = List.replicate 50 baseBar from rfl,
      dropna_bbw_replicate baseBar 50, hval]
    exact percentile10_replicate 0 (50 - 19) (by norm_num)
  have h5 : percentile10 (dropnaCol (atrCol constBars50) constBars50.length) = some 0 := by
    rw [hlen, show constBars50 = List.replicate 50 baseBar from rfl,
      dropna_atr_replicate baseBar 50, hatrval]
    exact percentile10_replicate 0 (50 - 13) (by norm_num)
  have h6 : constBars50[(constBars50.length - 1)]? = some baseBar := by
    rw [hlen, show constBars50 = List.replicate 50 baseBar from rfl,
      List.getElem?_replicate]
    norm_num
  exact scan_characterization (fun _ => some constBars50) ["X"] "X" constBars50
    0 0 1000 0 0 baseBar rfl (by norm_num [constBars50]) h1 h2 h3 h4 h5 h6

/-! Claim C9: skip semantics for failed fetches and short histories. -/

lemma backtestGo_skip (data : String → Option (List Bar)) (risk : ℚ) (t : String)
    (post : List String) (bars : List Bar)
    (ht : data t = none ∨ (data t = some bars ∧ bars.length < 50)) :
    ∀ (pre : List String) (st : LoopState),
      backtestGo data risk (pre ++ t :: post) st = backtestGo data risk (pre ++ post) st := by
  intro pre
  induction pre with
  | nil =>
    intro st
    show backtestGo data risk (t :: post) st = backtestGo data risk post st
    rcases ht with h | ⟨h, hlen⟩
    · simp only [backtestGo, h]
    · simp only [backtestGo, h]
      rw [if_pos hlen]
  | cons p ps ih =>
    intro st
    show backtestGo data risk (p :: (ps ++ t :: post)) st =
      backtestGo data risk (p :: (ps ++ post)) st
    cases hdp : data p with
    | none =>
      simp only [backtestGo, hdp]
      exact ih st
    | some pbars =>
      simp only [backtestGo, hdp]
      by_cases hl : pbars.length < 50
      · rw [if_pos hl, if_pos hl]
        exact ih st
      · rw [if_neg hl, if_neg hl]
        cases hc : calculate_trade_parameters ⟨pbars, false⟩ with
        | none => rfl
        | some prm =>
          obtain ⟨entry, stop, target⟩ := prm
          cases hrl : runLoop p risk entry stop target pbars st with
          | none => simp only [hrl]
          | some st' =>
            simp only [hrl]
            exact ih st'

lemma scan_stocks_skip (data : String → Option (List Bar)) (t : String)
    (pre post : List String) (bars : List Bar)
    (ht : data t = none ∨ (data t = some bars ∧ bars.length < 50)) :
    scan_stocks data (pre ++ t :: post) = scan_stocks data (pre ++ post) := by
  unfold scan_stocks
  rw [List.filter_append, List.filter_append, List.filter_cons]
  rcases ht with h | ⟨h, hlen⟩
  · simp [h]
  · simp [h, hlen]

/-- C9: a non-success response or empty result set makes the fetch return
nothing, and an instrument whose fetch failed or whose series is shorter
than 50 bars is skipped identically by the backtest and the scanner — it
contributes no trades, no capital change and no candidates, and the
remaining instruments are processed as if it were absent. -/
theorem skip_semantics (resp : PolygonResponse) (data : String → Option (List Bar))
    (pre post : List String) (t : String) (cap risk : ℚ) (bars : List Bar) :
    ((resp.statusCode ≠ 200 ∨ resp.results = []) → fetch_polygon_data resp = none) ∧
    ((data t = none ∨ (data t = some bars ∧ bars.length < 50)) →
      backtest data (pre ++ t :: post) cap risk = backtest data (pre ++ post) cap risk ∧
      scan_stocks data (pre ++ t :: post) = scan_stocks data (pre ++ post)) := by
  constructor
  · intro h
    unfold fetch_polygon_data
    rcases h with h | h
    · rw [if_pos h]
    · by_cases hs : resp.statusCode ≠ 200
      · rw [if_pos hs]
      · rw [if_neg hs, if_pos h]
  · intro ht
    exact ⟨backtestGo_skip data risk t post bars ht pre ⟨cap, []⟩,
      scan_stocks_skip data t pre post bars ht⟩

/-- Witness for `skip_semantics`: a 404 response fetches nothing, and a
ticker whose fetch fails drops out of both the backtest and the scan. -/
theorem skip_semantics_witness :
    fetch_polygon_data ⟨404, []⟩ = none ∧
    backtest (fun _ => none) ["A", "B"] 100000 (2 / 100) =
      backtest (fun _ => none) ["A"] 100000 (2 / 100) ∧
    scan_stocks (fun _ => none) ["A", "B"] = scan_stocks (fun _ => none) ["A"] := by
  have h := skip_semantics ⟨404, []⟩ (fun _ => none) ["A"] [] "B" 100000 (2 / 100) []
  exact ⟨h.1 (Or.inl (by norm_num)), (h.2 (Or.inl rfl)).1, (h.2 (Or.inl rfl)).2⟩

/-! Claim C10: determinism of the backtest. -/

lemma backtestGo_congr (data1 data2 : String → Option (List Bar)) (risk : ℚ) :
    ∀ (tickers : List String) (st : LoopState),
      (∀ t ∈ tickers, data1 t = data2 t) →
      backtestGo data1 risk tickers st = backtestGo data2 risk tickers st := by
  intro tickers
  induction tickers with
  | nil => intro st _; rfl
  | cons t rest ih =>
    intro st h
    have ht : data1 t = data2 t := h t (by simp)
    cases hdt : data2 t with
    | none =>
      simp only [backtestGo, ht, hdt]
      exact ih st fun x hx => h x (by simp [hx])
    | some bars =>
      simp only [backtestGo, ht, hdt]
      by_cases hl : bars.length < 50
      · rw [if_pos hl, if_pos hl]
        exact ih st fun x hx => h x (by simp [hx])
      · rw [if_neg hl, if_neg hl]
        cases hc : calculate_trade_parameters ⟨bars, false⟩ with
        | none => rfl
        | some prm =>
          obtain ⟨entry, stop, target⟩ := prm
          cases hrl : runLoop t risk entry stop target bars st with
          | none => simp only [hrl]
          | some st' =>
            simp only [hrl]
            exact ih st' fun x hx => h x (by simp [hx])

/-- C10: the backtest is deterministic — two runs over the same ticker list
with bar series agreeing on every listed ticker and the same initial
capital and risk fraction produce the same trade log and final capital. -/
theorem backtest_deterministic (data1 data2 : String → Option (List Bar))
    (tickers : List String) (cap risk : ℚ)
    (h : ∀ t ∈ tickers, data1 t = data2 t) :
    backtest data1 tickers cap risk = backtest data2 tickers cap risk :=
  backtestGo_congr data1 data2 risk tickers ⟨cap, []⟩ h

/-- Witness for `backtest_deterministic`: two syntactically different data
functions agreeing on the listed ticker give identical runs. -/
theorem backtest_deterministic_witness :
    backtest (fun _ => none) ["A"] 100000 (2 / 100) =
      backtest (fun s => if s = "A" then none else some []) ["A"] 100000 (2 / 100) :=
  backtest_deterministic (fun _ => none) (fun s => if s = "A" then none else some [])
    ["A"] 100000 (2 / 100) (by intro x hx; simp at hx; subst hx; simp)

end LowVol
